import Mathlib

/-!
Verification of the smokescreen request-admission pipeline
(`pkg/smokescreen/smokescreen.go`) against its specification.

The Go source is shallowly embedded: pure functions become Lean functions;
calls to injected collaborators (the resolver, the egress ACL, the role
extractor) are modelled as function-valued configuration fields; side effects
(statsd counter increments, resolver invocations, ACL consultations, dial
attempts) are returned explicitly as an ordered event list.  Go's
`(value, error)` multiple returns are modelled with `Except` or with explicit
`Option` error components, matching the shape of each Go function.

External standard-library behaviour used by the source (`net.SplitHostPort`,
`net.JoinHostPort`, `goproxy.NewResponse`) is embedded from the documented
behaviour of those libraries; repository code referenced by the source but
absent from the provided sources (the private-range table, the host-extraction
regex, the missing-role sentinel) is modelled from the specification and marked
as such in its doc comment.
-/

namespace Smokescreen

/-- An IP address, abstracted to the facts the smokescreen core observes about
it: the Go standard library predicates `IsGlobalUnicast` and `IsLoopback`,
membership in the repository's built-in private-range table, and its string
rendering (used in error messages). -/
structure IPAddr where
  isGlobalUnicast : Bool
  isLoopback : Bool
  privateRange : Bool
  str : String
deriving DecidableEq, Repr

/-- A CIDR network (`*net.IPNet`), abstracted to its membership test
(`Net.Contains` in the source). -/
structure IPNet where
  contains : IPAddr → Bool

/-- A rule range: a CIDR plus an optional port (0 means any port).  Mirrors
the repository's `RuleRange` configuration type. -/
structure RuleRange where
  net : IPNet
  port : Int

/-- `net.TCPAddr`: IP, zone and port. -/
structure TCPAddr where
  ip : IPAddr
  zone : String
  port : Int
deriving DecidableEq, Repr

/-- The `ipType` classification enum from the source. -/
inductive ipType where
  | ipAllowDefault
  | ipAllowUserConfigured
  | ipDenyNotGlobalUnicast
  | ipDenyPrivateRange
  | ipDenyUserConfigured
deriving DecidableEq, Repr

/-- `ipType.IsAllowed` from the source. -/
def ipType.IsAllowed (t : ipType) : Bool :=
  t == ipType.ipAllowDefault || t == ipType.ipAllowUserConfigured

/-- `ipType.String` from the source (named `toString` in the embedding). -/
def ipType.toString : ipType → String
  | .ipAllowDefault => "Allow: Default"
  | .ipAllowUserConfigured => "Allow: User Configured"
  | .ipDenyNotGlobalUnicast => "Deny: Not Global Unicast"
  | .ipDenyPrivateRange => "Deny: Private Range"
  | .ipDenyUserConfigured => "Deny: User Configured"

/-- `ipType.statsdString` from the source. -/
def ipType.statsdString : ipType → String
  | .ipAllowDefault => "resolver.allow.default"
  | .ipAllowUserConfigured => "resolver.allow.user_configured"
  | .ipDenyNotGlobalUnicast => "resolver.deny.not_global_unicast"
  | .ipDenyPrivateRange => "resolver.deny.private_range"
  | .ipDenyUserConfigured => "resolver.deny.user_configured"

/-- Modelled from the spec: `PrivateRuleRanges` is defined in the repository's
configuration code, which is not among the provided source files.  Per the
spec (section 4.1) it is the built-in table of private CIDRs (RFC1918,
link-local, CGNAT, multicast, broadcast, documentation ranges, and the IPv6
counterparts), every entry with port 0.  Since CIDRs are abstracted to
membership tests, the whole table is modelled as a single port-0 entry whose
membership test is the `privateRange` fact carried by the abstract address
(membership in the union of the built-in CIDRs). -/
def PrivateRuleRanges : List RuleRange :=
  [{ net := { contains := fun ip => ip.privateRange }, port := 0 }]

/-- A Go `error` value as the smokescreen core distinguishes them: either the
typed `denyError` or any other error, each carrying its `Error()` message. -/
inductive GoError where
  | deny (msg : String)
  | err (msg : String)
deriving DecidableEq, Repr

/-- `Error()` on an embedded Go error. -/
def GoError.message : GoError → String
  | .deny m => m
  | .err m => m

/-- One entry of `Resolver.LookupIPAddr`'s result (`net.IPAddr`). -/
structure IPEntry where
  ip : IPAddr
  zone : String
deriving DecidableEq, Repr

/-- The injected resolver (`config.Resolver`): port lookup and host lookup. -/
structure Resolver where
  lookupPort : String → String → Except GoError Int
  lookupIPAddr : String → Except GoError (List IPEntry)

/-- The missing-role sentinel and other role-extraction errors.  Modelled from
the spec: `MissingRoleError` / `IsMissingRoleError` live in repository code
not among the provided sources; the spec (section 4.3) describes a sentinel
missing-role error distinguished from all other errors. -/
inductive RoleError where
  | missingRole (msg : String)
  | other (msg : String)
deriving DecidableEq, Repr

/-- Modelled from the spec: constructor for the missing-role sentinel. -/
def MissingRoleError (msg : String) : RoleError := .missingRole msg

/-- Modelled from the spec: test for the missing-role sentinel. -/
def IsMissingRoleError : RoleError → Bool
  | .missingRole _ => true
  | .other _ => false

/-- The result enum of the external ACL evaluator (`acl.Allow`,
`acl.AllowAndReport`, `acl.Deny`); the `other` constructor stands for any
further value, which the source handles in a `default` switch case. -/
inductive AclResult where
  | Allow
  | AllowAndReport
  | Deny
  | other (n : Int)
deriving DecidableEq, Repr

/-- The record returned by `EgressACL.Decide`. -/
structure EgressAclDecision where
  Result : AclResult
  Reason : String
  Project : String
  Default : Bool
deriving DecidableEq, Repr

/-- An inbound HTTP request, abstracted to the fields the admission pipeline
reads. -/
structure Request where
  host : String
  urlScheme : String
  protoMajor : Int
  protoMinor : Int
deriving DecidableEq, Repr

/-- The smokescreen configuration, restricted to the fields the admission
pipeline reads. -/
structure Config where
  AllowRanges : List RuleRange
  DenyRanges : List RuleRange
  resolver : Resolver
  egressACL : Option (String → String → EgressAclDecision × Option GoError)
  roleFromRequest : Option (Request → Except RoleError String)
  allowMissingRole : Bool
  additionalErrorMessageOnDeny : String

/-- An observable side effect of the pipeline: a statsd counter increment or
an invocation of an external collaborator. -/
inductive Event where
  | counter (name : String) (tags : List String)
  | resolverLookupPort (network port : String)
  | resolverLookupIP (host : String)
  | aclDecide (role destination : String)
  | dialAttempt (addr : String)
deriving DecidableEq, Repr

/-- `addrIsInRuleRange` from the source: walks the ranges in order, skipping a
range whose nonzero port differs from the address port, and returns true on
the first range whose CIDR contains the IP. -/
def addrIsInRuleRange (ranges : List RuleRange) (addr : TCPAddr) : Bool :=
  match ranges with
  | [] => false
  | rng :: rest =>
    if rng.port != 0 && addr.port != rng.port then addrIsInRuleRange rest addr
    else if rng.net.contains addr.ip then true
    else addrIsInRuleRange rest addr

/-- `classifyAddr` from the source. -/
def classifyAddr (config : Config) (addr : TCPAddr) : ipType :=
  if !addr.ip.isGlobalUnicast || addr.ip.isLoopback then
    if addrIsInRuleRange config.AllowRanges addr then
      ipType.ipAllowUserConfigured
    else
      ipType.ipDenyNotGlobalUnicast
  else
    if addrIsInRuleRange config.AllowRanges addr then
      ipType.ipAllowUserConfigured
    else if addrIsInRuleRange config.DenyRanges addr then
      ipType.ipDenyUserConfigured
    else if addrIsInRuleRange PrivateRuleRanges addr then
      ipType.ipDenyPrivateRange
    else
      ipType.ipAllowDefault

/-- Spec-side reading of "matches an `AllowRanges` entry": the CIDR contains
the IP and the rule port is 0 or equals the address port. -/
def ruleRangeMatches (rng : RuleRange) (addr : TCPAddr) : Bool :=
  (rng.port == 0 || addr.port == rng.port) && rng.net.contains addr.ip

/-- Spec-side reading of "matches some entry of the range list". -/
def matchesRanges (ranges : List RuleRange) (addr : TCPAddr) : Bool :=
  ranges.any (fun rng => ruleRangeMatches rng addr)

/-- The classifier exactly as the spec words it (section 4.1), written as the
first-match decision over the spec-side range matching. -/
def classifySpec (config : Config) (addr : TCPAddr) : ipType :=
  if !addr.ip.isGlobalUnicast || addr.ip.isLoopback then
    if matchesRanges config.AllowRanges addr then ipType.ipAllowUserConfigured
    else ipType.ipDenyNotGlobalUnicast
  else if matchesRanges config.AllowRanges addr then ipType.ipAllowUserConfigured
  else if matchesRanges config.DenyRanges addr then ipType.ipDenyUserConfigured
  else if matchesRanges PrivateRuleRanges addr then ipType.ipDenyPrivateRange
  else ipType.ipAllowDefault

theorem addrIsInRuleRange_eq_matchesRanges (ranges : List RuleRange) (addr : TCPAddr) :
    addrIsInRuleRange ranges addr = matchesRanges ranges addr := by
  induction ranges with
  | nil => rfl
  | cons rng rest ih =>
    by_cases h0 : rng.port = 0 <;> by_cases hp : addr.port = rng.port <;>
      cases hc : rng.net.contains addr.ip <;>
        simp_all [addrIsInRuleRange, matchesRanges, ruleRangeMatches, bne]

/-- Claim C1: for every configuration and resolved TCP address the classifier
returns exactly the class the spec's first-match order (section 4.1)
prescribes: non-global-unicast or loopback addresses are allow-user when they
match `AllowRanges` and deny-not-global-unicast otherwise; other addresses are
allow-user on an `AllowRanges` match, then deny-user on a `DenyRanges` match,
then deny-private on a built-in private-table match, and allow-default
otherwise. -/
theorem classifyAddr_eq_classifySpec (config : Config) (addr : TCPAddr) :
    classifyAddr config addr = classifySpec config addr := by
  simp only [classifyAddr, classifySpec, addrIsInRuleRange_eq_matchesRanges]

/-- Last index of a character in a character list, -1 when absent (the shape
of Go's `strings.LastIndex` for a one-byte pattern). -/
def lastIndexC (l : List Char) (c : Char) : Int :=
  match l with
  | [] => -1
  | a :: rest =>
    let r := lastIndexC rest c
    if r ≥ 0 then r + 1 else if a = c then 0 else -1

/-- First index of a character in a character list, -1 when absent (the shape
of Go's `bytealg.IndexByteString`). -/
def indexC (l : List Char) (c : Char) : Int :=
  match l with
  | [] => -1
  | a :: rest =>
    if a = c then 0
    else
      let r := indexC rest c
      if r ≥ 0 then r + 1 else -1

/-- `net.SplitHostPort`, embedded from the Go standard library: the port
starts after the last colon; a leading `[` demands the first `]` to sit just
before that colon; stray brackets or extra colons are rejected.  Errors render
as `net.AddrError` does: `address <addr>: <why>`. -/
def splitHostPort (hostPort : String) : Except GoError (String × String) :=
  let l := hostPort.toList
  let addrErr : String → Except GoError (String × String) := fun why =>
    Except.error (GoError.err ("address " ++ hostPort ++ ": " ++ why))
  let i := lastIndexC l ':'
  if i < 0 then addrErr "missing port in address"
  else if l.head? = some '[' then
    let e := indexC l ']'
    if e < 0 then addrErr "missing ']' in address"
    else if e.toNat + 1 = l.length then addrErr "missing port in address"
    else if (e.toNat + 1 : Int) = i then
      if indexC (l.drop 1) '[' ≥ 0 then addrErr "unexpected '[' in address"
      else if indexC (l.drop (e.toNat + 1)) ']' ≥ 0 then addrErr "unexpected ']' in address"
      else Except.ok (String.mk ((l.drop 1).take (e.toNat - 1)), String.mk (l.drop (i.toNat + 1)))
    else if (l.drop (e.toNat + 1)).head? = some ':' then addrErr "too many colons in address"
    else addrErr "missing port in address"
  else
    let host := l.take i.toNat
    if indexC host ':' ≥ 0 then addrErr "too many colons in address"
    else if indexC l '[' ≥ 0 then addrErr "unexpected '[' in address"
    else if indexC l ']' ≥ 0 then addrErr "unexpected ']' in address"
    else Except.ok (String.mk host, String.mk (l.drop (i.toNat + 1)))

/-- `net.JoinHostPort`, embedded from the Go standard library: a host
containing a colon is assumed to be an IPv6 literal and is wrapped in
brackets. -/
def joinHostPort (host port : String) : String :=
  if host.toList.contains ':' then "[" ++ host ++ "]:" ++ port
  else host ++ ":" ++ port

/-- `resolveTCPAddr` from the source: requires network `tcp`, splits host and
port, looks the port and then the host up via the injected resolver, rejects
an empty result, and builds the TCP address from the first resolved entry and
the looked-up port. -/
def resolveTCPAddr (config : Config) (network addr : String) :
    Except GoError TCPAddr × List Event :=
  if network != "tcp" then
    (Except.error (GoError.err ("unknown network type \"" ++ network ++ "\"")), [])
  else
    match splitHostPort addr with
    | Except.error e => (Except.error e, [])
    | Except.ok (host, port) =>
      match config.resolver.lookupPort network port with
      | Except.error e => (Except.error e, [Event.resolverLookupPort network port])
      | Except.ok resolvedPort =>
        match config.resolver.lookupIPAddr host with
        | Except.error e =>
          (Except.error e,
            [Event.resolverLookupPort network port, Event.resolverLookupIP host])
        | Except.ok ips =>
          match ips with
          | [] =>
            (Except.error (GoError.err "no IPs resolved"),
              [Event.resolverLookupPort network port, Event.resolverLookupIP host])
          | ip0 :: _ =>
            (Except.ok { ip := ip0.ip, zone := ip0.zone, port := resolvedPort },
              [Event.resolverLookupPort network port, Event.resolverLookupIP host])

/-- The triple returned by `safeResolve` in the source: resolved address (nil
on failure), human reason, and error. -/
structure SafeResolveResult where
  resolved : Option TCPAddr
  reason : String
  err : Option GoError
deriving DecidableEq, Repr

/-- `safeResolve` from the source: counts the attempt, resolves, counts an
error on resolution failure, classifies the resolved address, counts the
classification bucket, and either returns the address with the classification
name or a `denyError`. -/
def safeResolve (config : Config) (network addr : String) :
    SafeResolveResult × List Event :=
  let r := resolveTCPAddr config network addr
  match r.1 with
  | Except.error e =>
    ({ resolved := none, reason := "", err := some e },
      Event.counter "resolver.attempts_total" [] ::
        r.2 ++ [Event.counter "resolver.errors_total" []])
  | Except.ok resolved =>
    let classification := classifyAddr config resolved
    let evs := Event.counter "resolver.attempts_total" [] ::
      r.2 ++ [Event.counter classification.statsdString []]
    if classification.IsAllowed then
      ({ resolved := some resolved, reason := classification.toString, err := none }, evs)
    else
      ({ resolved := none,
         reason := "destination address was denied by rule, see error",
         err := some (GoError.deny ("The destination address (" ++ resolved.ip.str ++
           ") was denied by rule '" ++ classification.toString ++ "'")) }, evs)

/-- Whether an event is a counter increment. -/
def Event.isCounter : Event → Bool
  | .counter _ _ => true
  | _ => false

/-- Whether an event is a counter increment with the given name. -/
def Event.isCounterNamed (n : String) : Event → Bool
  | .counter m _ => m == n
  | _ => false

/-- Whether an event is a dial attempt. -/
def Event.isDial : Event → Bool
  | .dialAttempt _ => true
  | _ => false

/-- Whether an event is an invocation of the injected resolver. -/
def Event.isResolverCall : Event → Bool
  | .resolverLookupPort _ _ => true
  | .resolverLookupIP _ => true
  | _ => false

/-- The five statsd classification-bucket counter names. -/
def bucketCounterNames : List String :=
  ["resolver.allow.default", "resolver.allow.user_configured",
   "resolver.deny.not_global_unicast", "resolver.deny.private_range",
   "resolver.deny.user_configured"]

/-- Whether an event is a classification-bucket counter increment. -/
def Event.isBucketCounter : Event → Bool
  | .counter m _ => bucketCounterNames.contains m
  | _ => false

theorem statsdString_isBucket (t : ipType) :
    t.statsdString ∈ bucketCounterNames := by
  cases t <;> decide

theorem resolveTCPAddr_events_are_resolver_calls (config : Config) (network addr : String) :
    ((resolveTCPAddr config network addr).2).all Event.isResolverCall = true := by
  unfold resolveTCPAddr
  repeat' split
  all_goals simp [Event.isResolverCall]

theorem safeResolve_events_shape (config : Config) (network addr : String) :
    (safeResolve config network addr).2 =
      Event.counter "resolver.attempts_total" [] ::
        (resolveTCPAddr config network addr).2 ++
        [match (resolveTCPAddr config network addr).1 with
         | Except.error _ => Event.counter "resolver.errors_total" []
         | Except.ok a => Event.counter ((classifyAddr config a).statsdString) []] := by
  cases h : (resolveTCPAddr config network addr).1 with
  | error e => simp [safeResolve, h]
  | ok a =>
    by_cases ha : (classifyAddr config a).IsAllowed <;> simp [safeResolve, h, ha]

/-- Claim C6: the resolver step rejects a non-`tcp` network with an "unknown
network" error that is not a denial, fails with "no IPs resolved" when the
injected resolver returns zero addresses, and otherwise builds the TCP address
from the first resolved entry together with the looked-up port. -/
theorem resolveTCPAddr_contract :
    (∀ (config : Config) (network addr : String), network ≠ "tcp" →
      resolveTCPAddr config network addr =
        (Except.error (GoError.err ("unknown network type \"" ++ network ++ "\"")), [])) ∧
    (∀ (config : Config) (addr host port : String) (resolvedPort : Int),
      splitHostPort addr = Except.ok (host, port) →
      config.resolver.lookupPort "tcp" port = Except.ok resolvedPort →
      config.resolver.lookupIPAddr host = Except.ok [] →
      (resolveTCPAddr config "tcp" addr).1 = Except.error (GoError.err "no IPs resolved")) ∧
    (∀ (config : Config) (addr host port : String) (resolvedPort : Int)
        (ip0 : IPEntry) (rest : List IPEntry),
      splitHostPort addr = Except.ok (host, port) →
      config.resolver.lookupPort "tcp" port = Except.ok resolvedPort →
      config.resolver.lookupIPAddr host = Except.ok (ip0 :: rest) →
      (resolveTCPAddr config "tcp" addr).1 =
        Except.ok { ip := ip0.ip, zone := ip0.zone, port := resolvedPort }) := by
  refine ⟨?_, ?_, ?_⟩
  · intro config network addr h
    simp [resolveTCPAddr, h]
  · intro config addr host port resolvedPort h1 h2 h3
    simp [resolveTCPAddr, h1, h2, h3]
  · intro config addr host port resolvedPort ip0 rest h1 h2 h3
    simp [resolveTCPAddr, h1, h2, h3]

/-- A public, non-private global-unicast address used in witnesses. -/
def ipPublic : IPAddr :=
  { isGlobalUnicast := true, isLoopback := false, privateRange := false,
    str := "93.184.216.34" }

/-- A global-unicast address inside the built-in private table, used in
witnesses. -/
def ipPrivate : IPAddr :=
  { isGlobalUnicast := true, isLoopback := false, privateRange := true,
    str := "10.0.0.5" }

/-- A resolver used in witnesses: every port resolves to 443; the host
`empty.test` resolves to no addresses, every other host to `ipPublic`. -/
def resolverW : Resolver :=
  { lookupPort := fun _ _ => Except.ok 443,
    lookupIPAddr := fun h =>
      if h = "empty.test" then Except.ok [] else Except.ok [{ ip := ipPublic, zone := "" }] }

/-- A configuration used in witnesses: no user ranges, no ACL, witness
resolver. -/
def cfgW : Config :=
  { AllowRanges := [], DenyRanges := [], resolver := resolverW,
    egressACL := none, roleFromRequest := none, allowMissingRole := true,
    additionalErrorMessageOnDeny := "" }

theorem resolveTCPAddr_contract_witness :
    resolveTCPAddr cfgW "udp" "example.com:443" =
      (Except.error (GoError.err "unknown network type \"udp\""), []) ∧
    (resolveTCPAddr cfgW "tcp" "empty.test:443").1 =
      Except.error (GoError.err "no IPs resolved") ∧
    (resolveTCPAddr cfgW "tcp" "example.com:443").1 =
      Except.ok { ip := ipPublic, zone := "", port := 443 } :=
  ⟨resolveTCPAddr_contract.1 cfgW "udp" "example.com:443" (by decide),
   resolveTCPAddr_contract.2.1 cfgW "empty.test:443" "empty.test" "443" 443
     rfl rfl rfl,
   resolveTCPAddr_contract.2.2 cfgW "example.com:443" "example.com" "443" 443
     { ip := ipPublic, zone := "" } [] rfl rfl rfl⟩

theorem isResolverCall_not_bucket (e : Event) (h : e.isResolverCall = true) :
    e.isBucketCounter = false := by
  cases e <;> simp_all [Event.isResolverCall, Event.isBucketCounter]

theorem isResolverCall_not_named (n : String) (e : Event) (h : e.isResolverCall = true) :
    e.isCounterNamed n = false := by
  cases e <;> simp_all [Event.isResolverCall, Event.isCounterNamed]

theorem statsdString_ne_errors_total (t : ipType) :
    (ipType.statsdString t == "resolver.errors_total") = false := by
  cases t <;> decide

/-- Claim C7 (amended): every `safeResolve` invocation first increments
`resolver.attempts_total`; `resolver.errors_total` is incremented exactly on
resolution failure (it is not incremented on classification denials); and
whenever classification occurs, exactly one classification-bucket counter is
incremented. -/
theorem safeResolve_counter_discipline (config : Config) (network addr : String) :
    ((safeResolve config network addr).2.head? =
      some (Event.counter "resolver.attempts_total" [])) ∧
    (∀ e, (resolveTCPAddr config network addr).1 = Except.error e →
      ((safeResolve config network addr).2.any
        (Event.isCounterNamed "resolver.errors_total")) = true) ∧
    (∀ a, (resolveTCPAddr config network addr).1 = Except.ok a →
      ((safeResolve config network addr).2.countP
          (fun e => Event.isBucketCounter e)) = 1 ∧
      ((safeResolve config network addr).2.any
        (Event.isCounterNamed "resolver.errors_total")) = false) := by
  have hsh := safeResolve_events_shape config network addr
  have hcalls := resolveTCPAddr_events_are_resolver_calls config network addr
  refine ⟨?_, ?_, ?_⟩
  · rw [hsh]; rfl
  · intro e he
    rw [hsh, he]
    simp [Event.isCounterNamed]
  · intro a ha
    rw [hsh, ha]
    constructor
    · simp only [List.countP_cons, List.countP_append, List.countP_nil]
      have h0 : (resolveTCPAddr config network addr).2.countP
          (fun e => Event.isBucketCounter e) = 0 := by
        rw [List.countP_eq_zero]
        intro e he
        have hc := List.all_eq_true.mp hcalls e he
        simp [isResolverCall_not_bucket e hc]
      have hb : Event.isBucketCounter
          (Event.counter ((classifyAddr config a).statsdString) []) = true := by
        simp only [Event.isBucketCounter]
        simp [statsdString_isBucket]
      have hat : Event.isBucketCounter
          (Event.counter "resolver.attempts_total" []) = false := by decide
      simp [h0, hb, hat]
    · rw [List.any_eq_false]
      intro e he
      simp only [List.mem_cons, List.mem_append, List.mem_singleton] at he
      rcases he with (rfl | he) | (rfl | hnil)
      · decide
      · have hc := List.all_eq_true.mp hcalls e he
        simp [isResolverCall_not_named _ e hc]
      · simp [Event.isCounterNamed, statsdString_ne_errors_total]
      · simp at hnil

theorem safeResolve_counter_discipline_witness :
    ((safeResolve cfgW "tcp" "example.com:443").2.countP
        (fun e => Event.isBucketCounter e)) = 1 ∧
    ((safeResolve cfgW "tcp" "example.com:443").2.any
      (Event.isCounterNamed "resolver.errors_total")) = false :=
  (safeResolve_counter_discipline cfgW "tcp" "example.com:443").2.2
    { ip := ipPublic, zone := "", port := 443 } rfl

/-- A configuration whose resolver maps every host to the private address
`10.0.0.5`, so that classification denies. -/
def cfgDenyPrivate : Config :=
  { AllowRanges := [], DenyRanges := [],
    resolver :=
      { lookupPort := fun _ _ => Except.ok 443,
        lookupIPAddr := fun _ => Except.ok [{ ip := ipPrivate, zone := "" }] },
    egressACL := none, roleFromRequest := none, allowMissingRole := true,
    additionalErrorMessageOnDeny := "" }

/-- Claim C7 counterexample: a denial is a failure of `safeResolve` (it
returns a `denyError`), yet `resolver.errors_total` is not incremented — only
the classification bucket counter is.  This refutes the claim that
`resolver.errors_total` is incremented on any failure including denials. -/
theorem safeResolve_denial_without_errors_total :
    (safeResolve cfgDenyPrivate "tcp" "evil.test:443").1.err =
      some (GoError.deny
        "The destination address (10.0.0.5) was denied by rule 'Deny: Private Range'") ∧
    ((safeResolve cfgDenyPrivate "tcp" "evil.test:443").2.any
      (Event.isCounterNamed "resolver.errors_total")) = false := by
  constructor <;> rfl

/-- The per-request decision record (`aclDecision` in the source). -/
structure aclDecision where
  reason : String
  role : String
  project : String
  outboundHost : String
  resolvedAddr : Option TCPAddr
  allow : Bool
  enforceWouldDeny : Bool
deriving DecidableEq, Repr

/-- `getRole` from the source: runs the configured `RoleFromRequest` (a
missing-role error when none is configured), passes a successful role through,
coerces a missing-role error to the empty role when `AllowMissingRole` is set,
and surfaces every other error. -/
def getRole (config : Config) (req : Request) : Except RoleError String :=
  let step : Except RoleError String :=
    match config.roleFromRequest with
    | some f => f req
    | none => Except.error (MissingRoleError "RoleFromRequest is not configured")
  match step with
  | Except.ok role => Except.ok role
  | Except.error e =>
    if IsMissingRoleError e && config.allowMissingRole then Except.ok ""
    else Except.error e

/-- Hostname characters accepted by the host-extraction pattern. -/
def isHostChar (c : Char) : Bool :=
  c.isAlphanum || c == '.' || c == '-' || c == '_'

/-- Characters accepted inside a bracketed IPv6 literal. -/
def isV6Char (c : Char) : Bool :=
  c.isDigit || ('a' ≤ c && c ≤ 'f') || ('A' ≤ c && c ≤ 'F') || c == ':'

/-- Modelled from the spec: `hostExtractRE` is defined in the repository's
configuration code, which is not among the provided source files.  Per the
spec (section 4.4) the regex extracts the destination from `outboundHost`,
stripping an optional `:port` suffix and the brackets of an IPv6 literal,
lowercasing the host, and accepting bare hostnames, IPv4 literals and
bracketed IPv6 literals.  This function returns the extracted first capture
group, or `none` where Go's `FindStringSubmatch` returns nil (no match). -/
def hostExtractSubmatch (s : String) : Option String :=
  let l := s.toList
  match l with
  | [] => none
  | '[' :: rest =>
    let inner := rest.takeWhile (fun c => c ≠ ']')
    match rest.drop inner.length with
    | ']' :: tail =>
      let portOk : Bool :=
        match tail with
        | [] => true
        | ':' :: ds => !ds.isEmpty && ds.all Char.isDigit
        | _ => false
      if !inner.isEmpty && inner.all isV6Char && portOk then
        some (String.mk (inner.map Char.toLower))
      else none
    | _ => none
  | _ =>
    if l.contains ':' then
      let name := l.takeWhile (fun c => c ≠ ':')
      match l.drop name.length with
      | ':' :: ds =>
        if !name.isEmpty && name.all isHostChar && !ds.isEmpty && ds.all Char.isDigit then
          some (String.mk (name.map Char.toLower))
        else none
      | _ => none
    else
      if l.all isHostChar then some (String.mk (l.map Char.toLower)) else none

/-- `checkACLsForRequest` from the source: nil ACL allows with a fixed reason;
a role-extraction failure denies with "Client role cannot be determined"
without consulting the ACL; otherwise the destination is taken from capture
group 1 of the host-extraction regex — the source indexes `submatch[1]`
without a nil check, so a non-matching `outboundHost` panics, modelled as
`none` — and the ACL result is mapped onto the decision record. -/
def checkACLsForRequest (config : Config) (req : Request) (outboundHost : String) :
    Option (aclDecision × List Event) :=
  let decision : aclDecision :=
    { reason := "", role := "", project := "", outboundHost := outboundHost,
      resolvedAddr := none, allow := false, enforceWouldDeny := false }
  match config.egressACL with
  | none =>
    some ({ decision with allow := true, reason := "Egress ACL is not configured" }, [])
  | some egressACLDecide =>
    match getRole config req with
    | Except.error _ =>
      some ({ decision with reason := "Client role cannot be determined" },
        [Event.counter "acl.role_not_determined" []])
    | Except.ok role =>
      let decision := { decision with role := role }
      match hostExtractSubmatch outboundHost with
      | none => none
      | some destination =>
        let aclRes := egressACLDecide role destination
        match aclRes.2 with
        | some _ =>
          some ({ decision with reason := aclRes.1.Reason },
            [Event.aclDecide role destination, Event.counter "acl.decide_error" []])
        | none =>
          let tags := ["role:" ++ decision.role,
                       "def_rule:" ++ (if aclRes.1.Default then "true" else "false"),
                       "project:" ++ aclRes.1.Project]
          let decision := { decision with reason := aclRes.1.Reason }
          match aclRes.1.Result with
          | AclResult.Deny =>
            some ({ decision with enforceWouldDeny := true },
              [Event.aclDecide role destination, Event.counter "acl.deny" tags])
          | AclResult.AllowAndReport =>
            some ({ decision with enforceWouldDeny := true, allow := true },
              [Event.aclDecide role destination, Event.counter "acl.report" tags])
          | AclResult.Allow =>
            some ({ decision with allow := true, enforceWouldDeny := false },
              [Event.aclDecide role destination, Event.counter "acl.allow" tags])
          | AclResult.other _ =>
            some ({ decision with reason := "Internal error" },
              [Event.aclDecide role destination, Event.counter "acl.unknown_error" tags])

/-- Claim C3: when the ACL evaluation returns without error, `Allow` yields
`allow` with `enforceWouldDeny` false, `AllowAndReport` yields `allow` with
`enforceWouldDeny` true, `Deny` yields a denial with `enforceWouldDeny` true;
and a nil `EgressACL` yields `allow` with reason "Egress ACL is not
configured". -/
theorem checkACLsForRequest_decision_mapping
    (config : Config) (req : Request) (outboundHost : String) :
    (config.egressACL = none →
      checkACLsForRequest config req outboundHost =
        some ({ reason := "Egress ACL is not configured", role := "", project := "",
                outboundHost := outboundHost, resolvedAddr := none, allow := true,
                enforceWouldDeny := false }, [])) ∧
    (∀ (aclFn : String → String → EgressAclDecision × Option GoError)
        (role destination : String),
      config.egressACL = some aclFn →
      getRole config req = Except.ok role →
      hostExtractSubmatch outboundHost = some destination →
      (aclFn role destination).2 = none →
      ∀ d evs, checkACLsForRequest config req outboundHost = some (d, evs) →
        (((aclFn role destination).1.Result = AclResult.Allow →
            d.allow = true ∧ d.enforceWouldDeny = false) ∧
         ((aclFn role destination).1.Result = AclResult.AllowAndReport →
            d.allow = true ∧ d.enforceWouldDeny = true) ∧
         ((aclFn role destination).1.Result = AclResult.Deny →
            d.allow = false ∧ d.enforceWouldDeny = true))) := by
  constructor
  · intro h
    simp [checkACLsForRequest, h]
  · intro aclFn role destination hA hR hH hE d evs hC
    simp only [checkACLsForRequest, hA, hR, hH, hE] at hC
    refine ⟨?_, ?_, ?_⟩ <;> intro hres <;> rw [hres] at hC <;>
      simp only [Option.some.injEq, Prod.mk.injEq] at hC <;>
      obtain ⟨rfl, -⟩ := hC <;> exact ⟨rfl, rfl⟩

/-- A request used in witnesses. -/
def reqW : Request :=
  { host := "example.com", urlScheme := "http", protoMajor := 1, protoMinor := 1 }

/-- An ACL evaluator used in witnesses: allows everything with a fixed
reason and project. -/
def aclAllowFn : String → String → EgressAclDecision × Option GoError :=
  fun _ _ =>
    ({ Result := AclResult.Allow, Reason := "allowed by test policy",
       Project := "proj", Default := false }, none)

/-- Witness configuration with an ACL and a role extractor returning `foo`. -/
def cfgAcl : Config :=
  { cfgW with egressACL := some aclAllowFn,
              roleFromRequest := some (fun _ => Except.ok "foo") }

/-- The decision record produced for `reqW` under `cfgAcl`. -/
def dAllowW : aclDecision :=
  { reason := "allowed by test policy", role := "foo", project := "",
    outboundHost := "example.com:443", resolvedAddr := none, allow := true,
    enforceWouldDeny := false }

theorem checkACLsForRequest_decision_mapping_witness :
    dAllowW.allow = true ∧ dAllowW.enforceWouldDeny = false :=
  ((checkACLsForRequest_decision_mapping cfgAcl reqW "example.com:443").2
      aclAllowFn "foo" "example.com" rfl rfl rfl rfl dAllowW
      [Event.aclDecide "foo" "example.com",
       Event.counter "acl.allow" ["role:foo", "def_rule:false", "project:proj"]]
      rfl).1 rfl

/-- Claim C4: a missing-role error (including a nil `RoleFromRequest`) with
`AllowMissingRole` set yields the empty role without error, and the ACL is
then consulted with the empty role; when `AllowMissingRole` is unset or the
error is not the missing-role sentinel, the error is surfaced and
`checkACLsForRequest` denies with reason "Client role cannot be determined",
increments `acl.role_not_determined`, and does not consult the ACL (its event
list is exactly that one counter). -/
theorem getRole_missing_role_policy (config : Config) (req : Request) :
    (config.roleFromRequest = none → config.allowMissingRole = true →
      getRole config req = Except.ok "") ∧
    (∀ (f : Request → Except RoleError String) (m : String),
      config.roleFromRequest = some f →
      f req = Except.error (RoleError.missingRole m) →
      config.allowMissingRole = true →
      getRole config req = Except.ok "") ∧
    (∀ (f : Request → Except RoleError String) (e : RoleError),
      config.roleFromRequest = some f →
      f req = Except.error e →
      (IsMissingRoleError e = false ∨ config.allowMissingRole = false) →
      getRole config req = Except.error e) ∧
    (config.roleFromRequest = none → config.allowMissingRole = false →
      getRole config req =
        Except.error (RoleError.missingRole "RoleFromRequest is not configured")) ∧
    (∀ (e : RoleError) (aclFn : String → String → EgressAclDecision × Option GoError)
        (outboundHost : String),
      getRole config req = Except.error e →
      config.egressACL = some aclFn →
      checkACLsForRequest config req outboundHost =
        some ({ reason := "Client role cannot be determined", role := "", project := "",
                outboundHost := outboundHost, resolvedAddr := none, allow := false,
                enforceWouldDeny := false },
          [Event.counter "acl.role_not_determined" []])) ∧
    (∀ (aclFn : String → String → EgressAclDecision × Option GoError)
        (outboundHost destination : String),
      config.egressACL = some aclFn →
      getRole config req = Except.ok "" →
      hostExtractSubmatch outboundHost = some destination →
      ∀ d evs, checkACLsForRequest config req outboundHost = some (d, evs) →
        d.role = "" ∧ Event.aclDecide "" destination ∈ evs) := by
  refine ⟨?_, ?_, ?_, ?_, ?_, ?_⟩
  · intro h hm
    simp [getRole, h, hm, MissingRoleError, IsMissingRoleError]
  · intro f m hf hr hm
    simp [getRole, hf, hr, hm, IsMissingRoleError]
  · intro f e hf hr hcase
    rcases hcase with hms | ham
    · simp [getRole, hf, hr, hms]
    · simp [getRole, hf, hr, ham]
  · intro h hm
    simp [getRole, h, hm, MissingRoleError, IsMissingRoleError]
  · intro e aclFn outboundHost hr hA
    simp [checkACLsForRequest, hA, hr]
  · intro aclFn outboundHost destination hA hr hH d evs hC
    simp only [checkACLsForRequest, hA, hr, hH] at hC
    cases hE : (aclFn "" destination).2 with
    | some ge =>
      rw [hE] at hC
      simp only [Option.some.injEq, Prod.mk.injEq] at hC
      obtain ⟨rfl, rfl⟩ := hC
      exact ⟨rfl, by simp⟩
    | none =>
      rw [hE] at hC
      cases hRes : (aclFn "" destination).1.Result <;> rw [hRes] at hC <;>
        simp only [Option.some.injEq, Prod.mk.injEq] at hC <;>
        obtain ⟨rfl, rfl⟩ := hC <;> exact ⟨rfl, by simp⟩

/-- Witness configuration: missing role tolerated (nil `RoleFromRequest`,
`AllowMissingRole` true) with an ACL configured. -/
def cfgMissingOk : Config := { cfgW with egressACL := some aclAllowFn }

/-- Witness configuration: missing role not tolerated (nil `RoleFromRequest`,
`AllowMissingRole` false) with an ACL configured. -/
def cfgNoRole : Config :=
  { cfgW with egressACL := some aclAllowFn, allowMissingRole := false }

theorem getRole_missing_role_policy_witness :
    getRole cfgMissingOk reqW = Except.ok "" ∧
    getRole cfgNoRole reqW =
      Except.error (RoleError.missingRole "RoleFromRequest is not configured") ∧
    checkACLsForRequest cfgNoRole reqW "example.com:443" =
      some ({ reason := "Client role cannot be determined", role := "", project := "",
              outboundHost := "example.com:443", resolvedAddr := none, allow := false,
              enforceWouldDeny := false },
        [Event.counter "acl.role_not_determined" []]) :=
  ⟨(getRole_missing_role_policy cfgMissingOk reqW).1 rfl rfl,
   (getRole_missing_role_policy cfgNoRole reqW).2.2.2.1 rfl rfl,
   (getRole_missing_role_policy cfgNoRole reqW).2.2.2.2.1
     (RoleError.missingRole "RoleFromRequest is not configured") aclAllowFn
     "example.com:443" ((getRole_missing_role_policy cfgNoRole reqW).2.2.2.1 rfl rfl) rfl⟩

/-- Claim C10: with a configured ACL and a determined role, the source indexes
`submatch[1]` of the host-extraction regex without checking that the match
succeeded, so `checkACLsForRequest` panics (modelled as `none`) on every
`outboundHost` the regex does not match, and returns a decision exactly on
matching hosts. -/
theorem checkACLsForRequest_submatch_panic
    (config : Config) (req : Request) (outboundHost : String)
    (aclFn : String → String → EgressAclDecision × Option GoError) (role : String)
    (hA : config.egressACL = some aclFn) (hR : getRole config req = Except.ok role) :
    (hostExtractSubmatch outboundHost = none →
      checkACLsForRequest config req outboundHost = none) ∧
    (∀ destination, hostExtractSubmatch outboundHost = some destination →
      (checkACLsForRequest config req outboundHost).isSome = true) := by
  constructor
  · intro hH
    simp [checkACLsForRequest, hA, hR, hH]
  · intro destination hH
    simp only [checkACLsForRequest, hA, hR, hH]
    cases hE : (aclFn role destination).2 with
    | some ge => simp [hE]
    | none => cases hRes : (aclFn role destination).1.Result <;> simp [hE, hRes]

theorem checkACLsForRequest_submatch_panic_witness :
    hostExtractSubmatch "bad//host" = none ∧
    checkACLsForRequest cfgMissingOk reqW "bad//host" = none :=
  ⟨rfl,
   (checkACLsForRequest_submatch_panic cfgMissingOk reqW "bad//host" aclAllowFn ""
     rfl rfl).1 rfl⟩

/-- `checkIfRequestShouldBeProxied` from the source: computes the ACL
decision; when it allows, resolves the outbound host, propagating non-denial
errors, downgrading the decision on a denial with a composed reason, and
storing the resolved address on success.  The `none` result stands for the
panic propagated out of `checkACLsForRequest`. -/
def checkIfRequestShouldBeProxied (config : Config) (req : Request) (outboundHost : String) :
    Option ((aclDecision × Option GoError) × List Event) :=
  match checkACLsForRequest config req outboundHost with
  | none => none
  | some (decision, evs) =>
    if decision.allow then
      let sr := safeResolve config "tcp" outboundHost
      match sr.1.err with
      | some e =>
        match e with
        | GoError.deny _ =>
          some (({ decision with
                    reason := e.message ++ ". " ++ sr.1.reason,
                    allow := false, enforceWouldDeny := true }, none), evs ++ sr.2)
        | GoError.err _ => some ((decision, some e), evs ++ sr.2)
      | none =>
        some (({ decision with resolvedAddr := sr.1.resolved }, none), evs ++ sr.2)
    else
      some ((decision, none), evs)

theorem checkACLsForRequest_events_no_resolver
    (config : Config) (req : Request) (outboundHost : String) :
    ∀ d evs, checkACLsForRequest config req outboundHost = some (d, evs) →
      evs.all (fun e => !e.isResolverCall) = true := by
  intro d evs h
  cases hA : config.egressACL with
  | none =>
    simp only [checkACLsForRequest, hA, Option.some.injEq, Prod.mk.injEq] at h
    obtain ⟨-, rfl⟩ := h
    rfl
  | some f =>
    cases hR : getRole config req with
    | error e =>
      simp only [checkACLsForRequest, hA, hR, Option.some.injEq, Prod.mk.injEq] at h
      obtain ⟨-, rfl⟩ := h
      simp [Event.isResolverCall]
    | ok role =>
      cases hH : hostExtractSubmatch outboundHost with
      | none => simp [checkACLsForRequest, hA, hR, hH] at h
      | some dest =>
        cases hE : (f role dest).2 with
        | some ge =>
          simp only [checkACLsForRequest, hA, hR, hH, hE, Option.some.injEq,
            Prod.mk.injEq] at h
          obtain ⟨-, rfl⟩ := h
          simp [Event.isResolverCall]
        | none =>
          cases hRes : (f role dest).1.Result <;>
            simp only [checkACLsForRequest, hA, hR, hH, hE, hRes, Option.some.injEq,
              Prod.mk.injEq] at h <;>
            obtain ⟨-, rfl⟩ := h <;> simp [Event.isResolverCall]

theorem safeResolve_classified_deny_reason
    (config : Config) (addr : String) (a : TCPAddr)
    (hok : (resolveTCPAddr config "tcp" addr).1 = Except.ok a) :
    ∀ m, (safeResolve config "tcp" addr).1.err = some (GoError.deny m) →
      (safeResolve config "tcp" addr).1.reason =
        "destination address was denied by rule, see error" := by
  intro m hm
  by_cases ha : (classifyAddr config a).IsAllowed <;>
    simp_all [safeResolve, hok]

/-- Claim C2 (amended): when the ACL decision has `allow == false` the
pipeline returns it verbatim without resolving (no resolver invocation occurs
in its events); when the ACL allows and resolution classifies the address as
denied, the decision is downgraded to `allow = false` with
`enforceWouldDeny = true` and a reason of the form
`"<denial>. destination address was denied by rule, see error"` — the denial
message followed by the fixed reason string `safeResolve` pairs with a
denial, not by the classification name. -/
theorem checkIfRequestShouldBeProxied_pipeline
    (config : Config) (req : Request) (outboundHost : String) :
    (∀ d evs, checkACLsForRequest config req outboundHost = some (d, evs) →
      d.allow = false →
      checkIfRequestShouldBeProxied config req outboundHost = some ((d, none), evs) ∧
      evs.all (fun e => !e.isResolverCall) = true) ∧
    (∀ d evs a m, checkACLsForRequest config req outboundHost = some (d, evs) →
      d.allow = true →
      (resolveTCPAddr config "tcp" outboundHost).1 = Except.ok a →
      (safeResolve config "tcp" outboundHost).1.err = some (GoError.deny m) →
      ∀ d2 err2 evs2,
        checkIfRequestShouldBeProxied config req outboundHost = some ((d2, err2), evs2) →
        d2.allow = false ∧ d2.enforceWouldDeny = true ∧ err2 = none ∧
        d2.reason = m ++ ". destination address was denied by rule, see error") := by
  constructor
  · intro d evs hACL hallow
    refine ⟨?_, checkACLsForRequest_events_no_resolver config req outboundHost d evs hACL⟩
    simp [checkIfRequestShouldBeProxied, hACL, hallow]
  · intro d evs a m hACL hallow hok hdeny d2 err2 evs2 hC
    have hreason := safeResolve_classified_deny_reason config outboundHost a hok m hdeny
    simp only [checkIfRequestShouldBeProxied, hACL, hallow, if_true, hdeny] at hC
    simp only [Option.some.injEq, Prod.mk.injEq] at hC
    obtain ⟨⟨rfl, rfl⟩, -⟩ := hC
    refine ⟨rfl, rfl, rfl, ?_⟩
    simp only [GoError.message, hreason, String.append_assoc]
    rfl

/-- Claim C2 counterexample: with no ACL configured (allow) and a resolver
yielding the private address `10.0.0.5`, the downgraded decision's reason is
the denial message followed by the fixed string
"destination address was denied by rule, see error", not by the
classification name "Deny: Private Range" as the claim states. -/
theorem checkIfRequestShouldBeProxied_reason_counterexample :
    ((checkIfRequestShouldBeProxied cfgDenyPrivate reqW "evil.test:443").map
      (fun r => r.1.1.reason)) =
      some ("The destination address (10.0.0.5) was denied by rule " ++
        "'Deny: Private Range'. destination address was denied by rule, see error") ∧
    ("The destination address (10.0.0.5) was denied by rule " ++
        "'Deny: Private Range'. destination address was denied by rule, see error") ≠
      ("The destination address (10.0.0.5) was denied by rule " ++
        "'Deny: Private Range'. Deny: Private Range") := by
  constructor
  · rfl
  · decide

theorem checkIfRequestShouldBeProxied_pipeline_witness :
    (checkIfRequestShouldBeProxied cfgNoRole reqW "example.com:443" =
      some ((({ reason := "Client role cannot be determined", role := "", project := "",
                outboundHost := "example.com:443", resolvedAddr := none, allow := false,
                enforceWouldDeny := false } : aclDecision), none),
        [Event.counter "acl.role_not_determined" []])) ∧
    (({ reason := "The destination address (10.0.0.5) was denied by rule " ++
          "'Deny: Private Range'. destination address was denied by rule, see error",
        role := "", project := "", outboundHost := "evil.test:443",
        resolvedAddr := none, allow := false, enforceWouldDeny := true } :
        aclDecision).allow = false) :=
  ⟨((checkIfRequestShouldBeProxied_pipeline cfgNoRole reqW "example.com:443").1
      { reason := "Client role cannot be determined", role := "", project := "",
        outboundHost := "example.com:443", resolvedAddr := none, allow := false,
        enforceWouldDeny := false }
      [Event.counter "acl.role_not_determined" []] rfl rfl).1,
   (((checkIfRequestShouldBeProxied_pipeline cfgDenyPrivate reqW "evil.test:443").2
      { reason := "Egress ACL is not configured", role := "", project := "",
        outboundHost := "evil.test:443", resolvedAddr := none, allow := true,
        enforceWouldDeny := false }
      [] { ip := ipPrivate, zone := "", port := 443 }
      ("The destination address (10.0.0.5) was denied by rule 'Deny: Private Range'")
      rfl rfl rfl rfl
      { reason := "The destination address (10.0.0.5) was denied by rule " ++
          "'Deny: Private Range'. destination address was denied by rule, see error",
        role := "", project := "", outboundHost := "evil.test:443",
        resolvedAddr := none, allow := false, enforceWouldDeny := true }
      none
      ((safeResolve cfgDenyPrivate "tcp" "evil.test:443").2) rfl).1)⟩

/-- An HTTP response, abstracted to the fields `rejectResponse` sets: status
code and text, content type, protocol version, the `X-Smokescreen-Error`
header, and the body. -/
structure Response where
  statusCode : Int
  status : String
  contentType : String
  protoMajor : Int
  protoMinor : Int
  smokescreenErrorHeader : Option String
  body : String
deriving DecidableEq, Repr

/-- `goproxy.ContentTypeText`, embedded from the goproxy library. -/
def goproxyContentTypeText : String := "text/plain"

/-- `goproxy.NewResponse`, embedded from the goproxy library: a fresh response
with the given content type, status code (with the standard status text) and
body; protocol fields start at the zero value and `rejectResponse` overwrites
them. -/
def goproxyNewResponse (contentType : String) (status : Int) (body : String) : Response :=
  { statusCode := status,
    status := if status == 407 then "Proxy Authentication Required" else "",
    contentType := contentType,
    protoMajor := 0, protoMinor := 0,
    smokescreenErrorHeader := none,
    body := body }

/-- `rejectResponse` from the source: the message is the deny template for
denial errors and "An unexpected error occurred." otherwise, extended with
`AdditionalErrorMessageOnDeny` when configured; the response is a 407 with
status text "Request Rejected by Proxy", the request's protocol version, the
message plus newline as body, and the message as `X-Smokescreen-Error`. -/
def rejectResponse (req : Request) (config : Config) (err : GoError) : Response :=
  let msg : String :=
    match err with
    | GoError.deny _ =>
      "Egress proxying is denied to host '" ++ req.host ++ "': " ++ err.message ++ "."
    | GoError.err _ => "An unexpected error occurred."
  let msg :=
    if config.additionalErrorMessageOnDeny ≠ "" then
      msg ++ "\n\n" ++ config.additionalErrorMessageOnDeny ++ "\n"
    else msg
  let resp := goproxyNewResponse goproxyContentTypeText 407 (msg ++ "\n")
  { resp with status := "Request Rejected by Proxy",
              protoMajor := req.protoMajor, protoMinor := req.protoMinor,
              smokescreenErrorHeader := some msg }

/-- The first line of the rejection message, before any additional
message is appended. -/
def rejectBaseMsg (req : Request) (err : GoError) : String :=
  match err with
  | GoError.deny _ =>
    "Egress proxying is denied to host '" ++ req.host ++ "': " ++ err.message ++ "."
  | GoError.err _ => "An unexpected error occurred."

/-- The full rejection message, including the configured additional
message when present. -/
def rejectFullMsg (req : Request) (config : Config) (err : GoError) : String :=
  if config.additionalErrorMessageOnDeny ≠ "" then
    rejectBaseMsg req err ++ "\n\n" ++ config.additionalErrorMessageOnDeny ++ "\n"
  else rejectBaseMsg req err

/-- Everything of a string before its first newline. -/
def firstLine (s : String) : String :=
  String.mk (s.data.takeWhile (fun c => c != '\n'))

theorem takeWhile_append_newline (l : List Char)
    (h : l.all (fun c => c != '\n') = true) :
    (l ++ ['\n']).takeWhile (fun c => c != '\n') = l := by
  induction l with
  | nil => rfl
  | cons a t ih =>
    simp only [List.all_cons, Bool.and_eq_true] at h
    simp [List.takeWhile_cons, h.1, ih h.2]

theorem string_data_append (a b : String) : (a ++ b).data = a.data ++ b.data := by
  cases a; cases b; rfl

theorem rejectResponse_eq (req : Request) (config : Config) (err : GoError) :
    rejectResponse req config err =
      { statusCode := 407, status := "Request Rejected by Proxy",
        contentType := "text/plain",
        protoMajor := req.protoMajor, protoMinor := req.protoMinor,
        smokescreenErrorHeader := some (rejectFullMsg req config err),
        body := rejectFullMsg req config err ++ "\n" } := by
  cases err <;> by_cases hadd : config.additionalErrorMessageOnDeny = "" <;>
    simp [rejectResponse, goproxyNewResponse, goproxyContentTypeText,
      rejectFullMsg, rejectBaseMsg, GoError.message, hadd]

/-- Claim C8 (amended): every synthesized rejection has status 407 with
status text "Request Rejected by Proxy", content type text/plain, the
request's HTTP version, body "Egress proxying is denied to host '<host>':
<reason>." for denial errors and "An unexpected error occurred." otherwise —
optionally extended with `AdditionalErrorMessageOnDeny` — followed by a
newline, and an `X-Smokescreen-Error` header equal to the entire message
(body minus the trailing newline).  The header equals the body's first line
only when no additional deny message is configured. -/
theorem rejectResponse_shape (req : Request) (config : Config) (err : GoError) :
    rejectResponse req config err =
      { statusCode := 407, status := "Request Rejected by Proxy",
        contentType := "text/plain",
        protoMajor := req.protoMajor, protoMinor := req.protoMinor,
        smokescreenErrorHeader := some (rejectFullMsg req config err),
        body := rejectFullMsg req config err ++ "\n" } ∧
    ((rejectBaseMsg req err).data.all (fun c => c != '\n') = true →
      config.additionalErrorMessageOnDeny = "" →
      (rejectResponse req config err).smokescreenErrorHeader =
        some (firstLine (rejectResponse req config err).body)) := by
  refine ⟨rejectResponse_eq req config err, ?_⟩
  intro hnl hempty
  rw [rejectResponse_eq]
  have hfull : rejectFullMsg req config err = rejectBaseMsg req err := by
    simp [rejectFullMsg, hempty]
  simp only [hfull, firstLine, string_data_append]
  rw [takeWhile_append_newline _ hnl]

theorem rejectResponse_shape_witness :
    (rejectResponse reqW cfgW (GoError.deny "boom")).smokescreenErrorHeader =
      some (firstLine (rejectResponse reqW cfgW (GoError.deny "boom")).body) :=
  (rejectResponse_shape reqW cfgW (GoError.deny "boom")).2 (by decide) rfl

/-- Witness configuration with a nonempty additional deny message. -/
def cfgAdd : Config := { cfgW with additionalErrorMessageOnDeny := "contact security" }

/-- Claim C8 counterexample: with `AdditionalErrorMessageOnDeny` configured,
the `X-Smokescreen-Error` header carries the entire multi-line message, so it
differs from the body's first line, refuting the claim that the header equals
the human message of the body's first line. -/
theorem rejectResponse_header_counterexample :
    (rejectResponse reqW cfgAdd (GoError.deny "boom")).smokescreenErrorHeader =
      some ("Egress proxying is denied to host 'example.com': boom." ++
        "\n\ncontact security\n") ∧
    firstLine (rejectResponse reqW cfgAdd (GoError.deny "boom")).body =
      "Egress proxying is denied to host 'example.com': boom." ∧
    some (firstLine (rejectResponse reqW cfgAdd (GoError.deny "boom")).body) ≠
      (rejectResponse reqW cfgAdd (GoError.deny "boom")).smokescreenErrorHeader := by
  refine ⟨rfl, rfl, by decide⟩

/-- `synthesizeRemoteHost`: the host:port synthesis for classic proxy
requests in `BuildProxy` (the source compares `strings.LastIndex(host, ":")`
with `strings.LastIndex(host, "]")` and joins a default port per URL scheme
when no port is present). -/
def synthesizeRemoteHost (req : Request) : String :=
  let remoteHost := req.host
  if lastIndexC remoteHost.data ':' ≤ lastIndexC remoteHost.data ']' then
    match req.urlScheme with
    | "http" => joinHostPort remoteHost "80"
    | "https" => joinHostPort remoteHost "443"
    | _ => joinHostPort remoteHost "0"
  else remoteHost

/-- The suffix of a character list after its last occurrence of `c` (the
whole list when `c` does not occur). -/
def afterLast (c : Char) : List Char → List Char
  | [] => []
  | a :: rest =>
    if rest.contains c then afterLast c rest
    else if a = c then rest
    else a :: rest

/-- Spec-side, bracket-aware "the host carries a port": a colon occurs after
the last closing bracket (anywhere, when there is no bracket). -/
def hostCarriesPort (h : String) : Bool :=
  (afterLast ']' h.data).contains ':'

/-- The default port the spec assigns per URL scheme. -/
def schemeDefaultPort (scheme : String) : String :=
  match scheme with
  | "http" => "80"
  | "https" => "443"
  | _ => "0"

theorem lastIndexC_nonneg_iff (l : List Char) (c : Char) :
    (0 ≤ lastIndexC l c) ↔ l.contains c = true := by
  induction l with
  | nil => simp [lastIndexC]
  | cons a rest ih =>
    simp only [lastIndexC, List.contains_cons]
    by_cases hr : 0 ≤ lastIndexC rest c
    · rw [if_pos hr, ih.mp hr]
      simp only [Bool.or_true, iff_true]
      omega
    · rw [if_neg hr]
      by_cases hac : a = c
      · rw [if_pos hac, hac]
        simp
      · rw [if_neg hac]
        have hbeq : (c == a) = false := beq_eq_false_iff_ne.mpr (fun h => hac h.symm)
        rw [hbeq, Bool.false_or, ← ih]
        constructor
        · intro h; omega
        · intro h; exact absurd h hr

theorem afterLast_contains_mono (c d : Char) (l : List Char)
    (h : l.contains d = false) : (afterLast c l).contains d = false := by
  induction l with
  | nil => simp [afterLast]
  | cons a rest ih =>
    simp only [List.contains_cons, Bool.or_eq_false_iff] at h
    by_cases hc : rest.contains c
    · simp only [afterLast, if_pos hc]
      exact ih h.2
    · by_cases hac : a = c
      · simp only [afterLast, if_neg hc, if_pos hac]
        exact h.2
      · simp only [afterLast, if_neg hc, if_neg hac, List.contains_cons,
          Bool.or_eq_false_iff]
        exact ⟨h.1, h.2⟩

theorem hostCarriesPort_iff (l : List Char) :
    (afterLast ']' l).contains ':' = true ↔
      lastIndexC l ']' < lastIndexC l ':' := by
  induction l with
  | nil => simp [afterLast, lastIndexC]
  | cons a rest ih =>
    simp only [lastIndexC]
    by_cases hrb : rest.contains ']'
    · have hb : 0 ≤ lastIndexC rest ']' := (lastIndexC_nonneg_iff rest ']').mpr hrb
      simp only [afterLast, if_pos hrb, ih, if_pos hb]
      by_cases hrc : 0 ≤ lastIndexC rest ':'
      · rw [if_pos hrc]
        constructor <;> intro h <;> omega
      · rw [if_neg hrc]
        by_cases hac : a = ':'
        · rw [if_pos hac]
          constructor <;> intro h <;> omega
        · rw [if_neg hac]
          constructor <;> intro h <;> omega
    · have hb : ¬ 0 ≤ lastIndexC rest ']' := fun h =>
        hrb ((lastIndexC_nonneg_iff rest ']').mp h)
      rw [if_neg hb]
      by_cases hab : a = ']'
      · simp only [afterLast, if_neg hrb, if_pos hab]
        rw [← lastIndexC_nonneg_iff rest ':']
        have hac : ¬ a = ':' := by rw [hab]; decide
        by_cases hrc : 0 ≤ lastIndexC rest ':'
        · rw [if_pos hrc]
          constructor <;> intro h <;> omega
        · rw [if_neg hrc, if_neg hac]
          constructor <;> intro h <;> omega
      · simp only [afterLast, if_neg hrb, if_neg hab, List.contains_cons, if_neg hab]
        by_cases hac : a = ':'
        · have hbeq : (':' == a) = true := by simp [hac]
          rw [hbeq, Bool.true_or]
          by_cases hrc : 0 ≤ lastIndexC rest ':'
          · rw [if_pos hrc]
            simp only [eq_self_iff_true, true_iff]
            omega
          · rw [if_neg hrc, if_pos hac]
            simp only [eq_self_iff_true, true_iff]
            omega
        · have hbeq : (':' == a) = false := beq_eq_false_iff_ne.mpr (fun h => hac h.symm)
          rw [hbeq, Bool.false_or, ← lastIndexC_nonneg_iff rest ':']
          by_cases hrc : 0 ≤ lastIndexC rest ':'
          · rw [if_pos hrc]
            constructor <;> intro h <;> omega
          · rw [if_neg hrc, if_neg hac]
            constructor <;> intro h <;> omega

/-- Claim C9 (amended): for classic proxy requests the front-end uses the
bracket-aware test "a colon occurs after the last `]`" to decide whether the
host already carries a port; portless hosts are joined with port 80 for
scheme `http`, 443 for `https`, and 0 otherwise via `net.JoinHostPort` —
which wraps an already-bracketed IPv6 literal such as `[::1]` in a second
bracket pair, producing `[[::1]]:80` — while hosts that already carry a port
are left unchanged. -/
theorem synthesizeRemoteHost_spec (req : Request) :
    (hostCarriesPort req.host = true → synthesizeRemoteHost req = req.host) ∧
    (hostCarriesPort req.host = false →
      synthesizeRemoteHost req =
        joinHostPort req.host (schemeDefaultPort req.urlScheme)) := by
  have hiff := hostCarriesPort_iff req.host.data
  constructor
  · intro h
    have hlt := hiff.mp h
    simp only [synthesizeRemoteHost, if_neg (by omega : ¬ lastIndexC req.host.data ':' ≤
      lastIndexC req.host.data ']')]
  · intro h
    have hnlt : ¬ lastIndexC req.host.data ']' < lastIndexC req.host.data ':' :=
      fun hc => by rw [hostCarriesPort, hiff.mpr hc] at h; exact absurd h (by decide)
    simp only [synthesizeRemoteHost, if_pos (by omega : lastIndexC req.host.data ':' ≤
      lastIndexC req.host.data ']')]
    unfold schemeDefaultPort
    split <;> rename_i heq <;> simp [heq]

/-- A request carrying an explicit port, used in witnesses. -/
def reqPort : Request :=
  { host := "example.com:443", urlScheme := "http", protoMajor := 1, protoMinor := 1 }

theorem synthesizeRemoteHost_spec_witness :
    synthesizeRemoteHost reqPort = "example.com:443" ∧
    synthesizeRemoteHost reqW = joinHostPort "example.com" (schemeDefaultPort "http") :=
  ⟨(synthesizeRemoteHost_spec reqPort).1 rfl,
   (synthesizeRemoteHost_spec reqW).2 rfl⟩

/-- A request for the bracketed IPv6 literal `[::1]` without a port. -/
def reqV6 : Request :=
  { host := "[::1]", urlScheme := "http", protoMajor := 1, protoMinor := 1 }

/-- Claim C9 counterexample: the front-end detects `[::1]` as portless but
`net.JoinHostPort` wraps the already-bracketed literal again, yielding
`[[::1]]:80` — not `[::1]:80`, and not even parsable by `net.SplitHostPort` —
so the literal is not "joined correctly" as claimed. -/
theorem synthesizeRemoteHost_brackets_counterexample :
    synthesizeRemoteHost reqV6 = "[[::1]]:80" ∧
    "[[::1]]:80" ≠ "[::1]:80" ∧
    splitHostPort "[[::1]]:80" =
      Except.error (GoError.err "address [[::1]]:80: missing port in address") := by
  refine ⟨rfl, by decide, rfl⟩

/-- The per-request context carried from the front-end into the dialer
(`smokescreenContext` in the source, restricted to the fields the dialer's
decision logic reads). -/
structure smokescreenContext where
  cfg : Config
  decision : aclDecision
  proxyType : String

/-- `net.TCPAddr.String`, embedded from the Go standard library: the IP
(suffixed with `%zone` when a zone is present) joined with the port. -/
def tcpAddrString (a : TCPAddr) : String :=
  joinHostPort (if a.zone ≠ "" then a.ip.str ++ "%" ++ a.zone else a.ip.str)
    (toString a.port)

/-- The string dialed for an optional resolved address (`<nil>` for Go's nil
`*net.TCPAddr`). -/
def resolvedAddrString (o : Option TCPAddr) : String :=
  match o with
  | some a => tcpAddrString a
  | none => "<nil>"

/-- The dial phase of `dialContext`: increments `cn.atpt.total`, attempts the
dial (its outcome injected, standing for `net.DialTimeout`), and increments
the fail or success counter.  The connection wrapping (instrumented or
timeout connection) carries no decision logic and is elided. -/
def dialContextDial (dialOutcome : Option GoError) (d : aclDecision)
    (evsPre : List Event) : Except GoError Unit × aclDecision × List Event :=
  let evs := evsPre ++ [Event.counter "cn.atpt.total" [],
    Event.dialAttempt (resolvedAddrString d.resolvedAddr)]
  match dialOutcome with
  | some e => (Except.error e, d, evs ++ [Event.counter "cn.atpt.fail.total" []])
  | none => (Except.ok (), d, evs ++ [Event.counter "cn.atpt.success.total" []])

/-- `dialContext` from the source: when the decision's resolved address is
missing, the outbound host differs from the requested address, or the network
is not `tcp`, it re-resolves via `safeResolve`, updating the decision's
resolved address and reason, and propagates any error; otherwise (and after a
successful re-resolution) it counts the attempt and dials the resolved
address. -/
def dialContext (dialOutcome : Option GoError) (sctx : smokescreenContext)
    (network addr : String) : Except GoError Unit × aclDecision × List Event :=
  let d := sctx.decision
  if d.resolvedAddr.isNone || d.outboundHost != addr || network != "tcp" then
    let sr := safeResolve sctx.cfg network addr
    let d2 := { d with resolvedAddr := sr.1.resolved, reason := sr.1.reason }
    match sr.1.err with
    | some e => (Except.error e, d2, sr.2)
    | none => dialContextDial dialOutcome d2 sr.2
  else
    dialContextDial dialOutcome d []

/-- The outcome of the HTTP front-end handler for one classic proxy request:
the final decision, the synthesized rejection (if any; `none` means the
request is forwarded), and the emitted events. -/
structure HandledRequest where
  decision : aclDecision
  response : Option Response
  events : List Event
deriving Repr

/-- The classic-proxy request handler from `BuildProxy`, composed with the
goproxy contract that a handler-returned response short-circuits forwarding:
the host:port is synthesized, admission runs, an error or a disallowed
decision synthesizes a rejection (and the transport, hence the dialer, is
never invoked), and otherwise the framework forwards by dialing through
`dialContext`.  Header stripping and logging carry no decision logic and are
elided.  `none` models the admission panic. -/
def handleHttpRequest (config : Config) (dialOutcome : Option GoError)
    (req : Request) : Option HandledRequest :=
  let remoteHost := synthesizeRemoteHost req
  match checkIfRequestShouldBeProxied config req remoteHost with
  | none => none
  | some ((decision, err), evs) =>
    match err with
    | some e =>
      some { decision := decision, response := some (rejectResponse req config e),
             events := evs }
    | none =>
      if decision.allow then
        let dres := dialContext dialOutcome
          { cfg := config, decision := decision, proxyType := "http" } "tcp" remoteHost
        some { decision := dres.2.1, response := none, events := evs ++ dres.2.2 }
      else
        some { decision := decision,
               response := some (rejectResponse req config (GoError.deny decision.reason)),
               events := evs }

/-- An event is admission-safe when it is neither a `cn.atpt.total` increment
nor a dial attempt. -/
def Event.isAdmissionSafe (e : Event) : Bool :=
  !(e.isCounterNamed "cn.atpt.total") && !e.isDial

theorem safeResolve_events_admission_safe (config : Config) (network addr : String) :
    ((safeResolve config network addr).2).all Event.isAdmissionSafe = true := by
  rw [safeResolve_events_shape, List.all_eq_true]
  intro e he
  simp only [List.mem_cons, List.mem_append, List.mem_singleton] at he
  rcases he with (rfl | he) | (rfl | hnil)
  · decide
  · have hc := List.all_eq_true.mp
      (resolveTCPAddr_events_are_resolver_calls config network addr) e he
    cases e <;> simp_all [Event.isResolverCall, Event.isAdmissionSafe,
      Event.isCounterNamed, Event.isDial]
  · cases h : (resolveTCPAddr config network addr).1 with
    | error ge => simp [Event.isAdmissionSafe, Event.isCounterNamed, Event.isDial]
    | ok a =>
      have : ((classifyAddr config a).statsdString == "cn.atpt.total") = false := by
        cases classifyAddr config a <;> decide
      simp [Event.isAdmissionSafe, Event.isCounterNamed, Event.isDial, this]
  · simp at hnil

theorem checkACLsForRequest_events_admission_safe
    (config : Config) (req : Request) (outboundHost : String) :
    ∀ d evs, checkACLsForRequest config req outboundHost = some (d, evs) →
      evs.all Event.isAdmissionSafe = true := by
  intro d evs h
  cases hA : config.egressACL with
  | none =>
    simp only [checkACLsForRequest, hA, Option.some.injEq, Prod.mk.injEq] at h
    obtain ⟨-, rfl⟩ := h
    rfl
  | some f =>
    cases hR : getRole config req with
    | error e =>
      simp only [checkACLsForRequest, hA, hR, Option.some.injEq, Prod.mk.injEq] at h
      obtain ⟨-, rfl⟩ := h
      decide
    | ok role =>
      cases hH : hostExtractSubmatch outboundHost with
      | none => simp [checkACLsForRequest, hA, hR, hH] at h
      | some dest =>
        cases hE : (f role dest).2 with
        | some ge =>
          simp only [checkACLsForRequest, hA, hR, hH, hE, Option.some.injEq,
            Prod.mk.injEq] at h
          obtain ⟨-, rfl⟩ := h
          simp [Event.isAdmissionSafe, Event.isCounterNamed, Event.isDial]
        | none =>
          cases hRes : (f role dest).1.Result <;>
            simp only [checkACLsForRequest, hA, hR, hH, hE, hRes, Option.some.injEq,
              Prod.mk.injEq] at h <;>
            obtain ⟨-, rfl⟩ := h <;>
            simp [Event.isAdmissionSafe, Event.isCounterNamed, Event.isDial]

theorem checkIfRequestShouldBeProxied_events_admission_safe
    (config : Config) (req : Request) (outboundHost : String) :
    ∀ r evs, checkIfRequestShouldBeProxied config req outboundHost = some (r, evs) →
      evs.all Event.isAdmissionSafe = true := by
  intro r evs h
  cases hACL : checkACLsForRequest config req outboundHost with
  | none => simp [checkIfRequestShouldBeProxied, hACL] at h
  | some p =>
    obtain ⟨d, aclEvs⟩ := p
    have haclSafe := checkACLsForRequest_events_admission_safe config req outboundHost
      d aclEvs hACL
    have hsrSafe := safeResolve_events_admission_safe config "tcp" outboundHost
    by_cases hallow : d.allow
    · cases hE : (safeResolve config "tcp" outboundHost).1.err with
      | some e =>
        cases e with
        | deny m =>
          simp only [checkIfRequestShouldBeProxied, hACL, hallow, if_true, hE,
            Option.some.injEq, Prod.mk.injEq] at h
          obtain ⟨-, rfl⟩ := h
          simp [List.all_append, haclSafe, hsrSafe]
        | err m =>
          simp only [checkIfRequestShouldBeProxied, hACL, hallow, if_true, hE,
            Option.some.injEq, Prod.mk.injEq] at h
          obtain ⟨-, rfl⟩ := h
          simp [List.all_append, haclSafe, hsrSafe]
      | none =>
        simp only [checkIfRequestShouldBeProxied, hACL, hallow, if_true, hE,
          Option.some.injEq, Prod.mk.injEq] at h
        obtain ⟨-, rfl⟩ := h
        simp [List.all_append, haclSafe, hsrSafe]
    · simp only [checkIfRequestShouldBeProxied, hACL, if_neg hallow,
        Option.some.injEq, Prod.mk.injEq] at h
      obtain ⟨-, rfl⟩ := h
      exact haclSafe

theorem dialContext_preserves_allow (dialOutcome : Option GoError)
    (sctx : smokescreenContext) (network addr : String) :
    (dialContext dialOutcome sctx network addr).2.1.allow = sctx.decision.allow := by
  by_cases hg : (sctx.decision.resolvedAddr.isNone ||
      sctx.decision.outboundHost != addr || network != "tcp") = true
  · cases he : (safeResolve sctx.cfg network addr).1.err with
    | some e => simp [dialContext, dialContextDial, hg, he]
    | none => cases dialOutcome <;> simp [dialContext, dialContextDial, hg, he]
  · have hg' : (sctx.decision.resolvedAddr.isNone ||
        sctx.decision.outboundHost != addr || network != "tcp") = false := by
      rwa [Bool.not_eq_true] at hg
    cases dialOutcome <;> simp [dialContext, dialContextDial, hg']

/-- Claim C5: a request whose final decision is `allow == false` always gets
a synthesized rejection and its events contain neither a `cn.atpt.total`
increment nor a dial attempt — the front-end short-circuits without invoking
the dialer; and the dialer itself, when re-resolution is required and fails,
propagates the error without incrementing `cn.atpt.total` or dialing. -/
theorem denied_requests_never_dial :
    (∀ (config : Config) (dialOutcome : Option GoError) (req : Request)
        (hr : HandledRequest),
      handleHttpRequest config dialOutcome req = some hr →
      hr.decision.allow = false →
      hr.response.isSome = true ∧ hr.events.all Event.isAdmissionSafe = true) ∧
    (∀ (dialOutcome : Option GoError) (sctx : smokescreenContext)
        (network addr : String) (e : GoError),
      (sctx.decision.resolvedAddr.isNone || sctx.decision.outboundHost != addr ||
        network != "tcp") = true →
      (safeResolve sctx.cfg network addr).1.err = some e →
      (dialContext dialOutcome sctx network addr).1 = Except.error e ∧
      ((dialContext dialOutcome sctx network addr).2.2).all
        Event.isAdmissionSafe = true) := by
  constructor
  · intro config dialOutcome req hr h hallow
    cases hC : checkIfRequestShouldBeProxied config req (synthesizeRemoteHost req) with
    | none => simp [handleHttpRequest, hC] at h
    | some p =>
      obtain ⟨⟨d, err⟩, evs⟩ := p
      have hsafe := checkIfRequestShouldBeProxied_events_admission_safe config req
        (synthesizeRemoteHost req) (d, err) evs hC
      cases err with
      | some e =>
        simp only [handleHttpRequest, hC, Option.some.injEq] at h
        subst h
        exact ⟨rfl, hsafe⟩
      | none =>
        by_cases hda : d.allow = true
        · exfalso
          simp only [handleHttpRequest, hC] at h
          rw [if_pos hda] at h
          obtain rfl := Option.some.inj h
          have hpres := dialContext_preserves_allow dialOutcome
            { cfg := config, decision := d, proxyType := "http" } "tcp"
            (synthesizeRemoteHost req)
          simp only at hallow
          rw [hpres] at hallow
          simp only at hallow
          rw [hda] at hallow
          exact absurd hallow (by decide)
        · simp only [handleHttpRequest, hC] at h
          rw [if_neg hda] at h
          obtain rfl := Option.some.inj h
          exact ⟨rfl, hsafe⟩
  · intro dialOutcome sctx network addr e hguard herr
    simp only [dialContext, if_pos hguard, herr]
    exact ⟨trivial, safeResolve_events_admission_safe sctx.cfg network addr⟩

/-- The decision `checkACLsForRequest` produces for `reqW` under `cfgNoRole`
with the synthesized outbound host. -/
def dNoRoleW : aclDecision :=
  { reason := "Client role cannot be determined", role := "", project := "",
    outboundHost := "example.com:80", resolvedAddr := none, allow := false,
    enforceWouldDeny := false }

/-- The handler outcome for `reqW` under `cfgNoRole`. -/
def hrNoRoleW : HandledRequest :=
  { decision := dNoRoleW,
    response := some (rejectResponse reqW cfgNoRole
      (GoError.deny "Client role cannot be determined")),
    events := [Event.counter "acl.role_not_determined" []] }

theorem denied_requests_never_dial_witness :
    hrNoRoleW.response.isSome = true ∧
    hrNoRoleW.events.all Event.isAdmissionSafe = true :=
  denied_requests_never_dial.1 cfgNoRole none reqW hrNoRoleW rfl rfl

end Smokescreen
